import Mathlib

set_option maxRecDepth 200000

/-!
Verification development for a small regular-expression engine
(parser → bytecode compiler → threaded NFA virtual machine).

The definitions below are a shallow embedding of `src/regex_impl.cc`:
patterns and subject texts are lists of Unicode codepoints (`List Nat`),
bytecode is a list of bytes (`List Nat`, each entry a value modulo 256),
and the VM state is an explicit list of threads.  C++ `Codepoint(-1)`
is the literal `4294967295`; byte pointers into the subject are byte
offsets; instruction pointers are byte offsets into the bytecode.
-/

namespace KakRegex

/-- Sentinel for the C++ `Codepoint(-1)` (`0xFFFFFFFF`), used by the parser for
"no capture index attached" and by `make_ast_node` as the default value. -/
def NONE : Nat := 4294967295

/-- Convert a plain ASCII Lean string to the codepoint-list representation used
throughout this development. -/
def s2c (s : String) : List Nat := s.toList.map Char.toNat

/-! ### UTF-8 encoding and decoding

Modelled from the spec: the UTF-8 utilities (`utf8::dump`,
`utf8::read_codepoint`, `utf8::advance` from `utf8.hh`) are external
collaborators not under `src/`; the spec describes them as standard UTF-8
codepoint encoding/decoding over bytes. -/

/-- Number of bytes in the UTF-8 encoding of a codepoint. -/
def utf8Len (cp : Nat) : Nat :=
  if cp < 128 then 1
  else if cp < 2048 then 2
  else if cp < 65536 then 3
  else 4

/-- Standard UTF-8 encoding of one codepoint (`utf8::dump`). -/
def utf8Encode (cp : Nat) : List Nat :=
  if cp < 128 then [cp]
  else if cp < 2048 then [192 + cp / 64, 128 + cp % 64]
  else if cp < 65536 then [224 + cp / 4096, 128 + cp / 64 % 64, 128 + cp % 64]
  else [240 + cp / 262144, 128 + cp / 4096 % 64, 128 + cp / 64 % 64, 128 + cp % 64]

/-- Decode one UTF-8 codepoint from a byte list at position `p`
(`utf8::read_codepoint`); returns the codepoint and the position just past it. -/
def utf8Read (bs : List Nat) (p : Nat) : Nat × Nat :=
  let b := bs.getD p 0
  if b < 128 then (b, p + 1)
  else if b < 224 then ((b - 192) * 64 + (bs.getD (p + 1) 0 - 128), p + 2)
  else if b < 240 then
    ((b - 224) * 4096 + (bs.getD (p + 1) 0 - 128) * 64 + (bs.getD (p + 2) 0 - 128), p + 3)
  else
    ((b - 240) * 262144 + (bs.getD (p + 1) 0 - 128) * 4096 +
       (bs.getD (p + 2) 0 - 128) * 64 + (bs.getD (p + 3) 0 - 128), p + 4)

/-- Decode `n` consecutive UTF-8 codepoints starting at `p`; returns them and
the position just past the last one (used for `CharRange` payloads). -/
def utf8ReadN (bs : List Nat) : Nat → Nat → List Nat × Nat
  | p, 0 => ([], p)
  | p, n + 1 =>
    let (c, p') := utf8Read bs p
    let (cs, e) := utf8ReadN bs p' n
    (c :: cs, e)

/-- Byte offset of codepoint index `pos` within `input` (the VM records capture
boundaries as byte-accurate offsets, `m_pos.base()`). -/
def byteOffset (input : List Nat) (pos : Nat) : Nat :=
  ((input.take pos).map utf8Len).sum

/-! ### Parser data model (`RegexCompiler` namespace of the source) -/

/-- Quantifier type tag (`Quantifier::Type`). -/
inductive QuantType where
  | One | Optional | RepeatZeroOrMore | RepeatOneOrMore | RepeatMinMax
deriving DecidableEq, Repr, Inhabited

/-- A parsed quantifier (`RegexCompiler::Quantifier`); `min`/`max` are C++
`int`s, `-1` meaning "missing". -/
structure Quantifier where
  type : QuantType
  min : Int := -1
  max : Int := -1
deriving DecidableEq, Repr, Inhabited

/-- `Quantifier::allows_none`. -/
def Quantifier.allows_none (q : Quantifier) : Bool :=
  q.type == .Optional || q.type == .RepeatZeroOrMore ||
    (q.type == .RepeatMinMax && decide (q.min ≤ 0))

/-- `Quantifier::allows_infinite_repeat`. -/
def Quantifier.allows_infinite_repeat (q : Quantifier) : Bool :=
  q.type == .RepeatZeroOrMore || q.type == .RepeatOneOrMore ||
    (q.type == .RepeatMinMax && q.max == -1)

/-- AST operator tag (`RegexCompiler::Op`). -/
inductive ROp where
  | Literal | AnyChar | CharRange | NegativeCharRange | Sequence | Alternation
  | LineStart | LineEnd | WordBoundary | NotWordBoundary | SubjectBegin | SubjectEnd
deriving DecidableEq, Repr, Inhabited

/-- AST node (`RegexCompiler::AstNode`): operator, value (codepoint, range-table
index, or capture index with `NONE` meaning unset), quantifier, children. -/
inductive AstNode where
  | mk (op : ROp) (value : Nat) (quantifier : Quantifier) (children : List AstNode)

instance : Inhabited AstNode := ⟨.mk .Literal 0 default []⟩

def AstNode.op : AstNode → ROp
  | .mk o _ _ _ => o

def AstNode.value : AstNode → Nat
  | .mk _ v _ _ => v

def AstNode.quantifier : AstNode → Quantifier
  | .mk _ _ q _ => q

def AstNode.children : AstNode → List AstNode
  | .mk _ _ _ cs => cs

/-- `make_ast_node` with its default arguments (`value = -1`, quantifier One). -/
def make_ast_node (op : ROp) (value : Nat := NONE) : AstNode :=
  .mk op value ⟨.One, -1, -1⟩ []

def AstNode.setValue : AstNode → Nat → AstNode
  | .mk o _ q cs, v => .mk o v q cs

def AstNode.setQuantifier : AstNode → Quantifier → AstNode
  | .mk o v _ cs, q => .mk o v q cs

/-- A character-class entry (`RegexCompiler::CharRange`); `max = 0` is the
sentinel for "single codepoint equal to `min`". -/
structure CharRange where
  min : Nat
  max : Nat
deriving DecidableEq, Repr, Inhabited

/-- Mutable parser state threaded through the recursive descent: the capture
counter and the character-range table of the `ParsedRegex` being built. -/
structure PState where
  capture_count : Nat
  ranges : List (List CharRange)
deriving DecidableEq, Repr

/-- `RegexCompiler::ParsedRegex`. -/
structure ParsedRegex where
  ast : AstNode
  capture_count : Nat
  ranges : List (List CharRange)

/-- Parse errors.  The C++ code throws `runtime_error`s with messages; the
constructors here name those messages ("Parse error in alternative",
"Unclosed parenthesis", "Unclosed character class", "Invalid range specified",
"expected closing bracket", "Unknown atom escape").  `readPastEnd` marks the
places where the C++ parser dereferences its iterator at the end of the
pattern string, an out-of-bounds read with no defined result. -/
inductive ParseErr where
  | parseError | unclosedParen | unclosedClass | invalidRange
  | expectedClosingBrace | unknownEscape | readPastEnd
deriving DecidableEq, Repr

/-- Characters treated as syntax by `atom` (`"^$.*+?()[]\x7b\x7d|"`). -/
def isAtomSyntaxChar (cp : Nat) : Bool :=
  cp ∈ [94, 36, 46, 42, 43, 63, 40, 41, 91, 93, 123, 125, 124]

/-- Characters treated as SyntaxCharacter by `atom_escape`
(`"^$\\.*+?()[]\x7b\x7d|"`). -/
def isEscapeSyntaxChar (cp : Nat) : Bool :=
  cp ∈ [94, 36, 92, 46, 42, 43, 63, 40, 41, 91, 93, 123, 125, 124]

/-- The `read_int` lambda of `Parser::quantifier`: accumulate decimal digits;
a non-digit at the very start yields `-1`; running off the end returns the
accumulator as is.  (The fuel argument only bounds the loop, which advances
one codepoint per step and stops at the pattern's end.) -/
def read_int_go (pat : List Nat) (begin_ : Nat) : Nat → Int → Nat → Int × Nat
  | 0, res, pos => (res, pos)
  | fuel + 1, res, pos =>
    if h : pos < pat.length then
      let cp := pat.get ⟨pos, h⟩
      if cp < 48 ∨ 57 < cp then (if pos = begin_ then -1 else res, pos)
      else read_int_go pat begin_ fuel (res * 10 + ((cp - 48 : Nat) : Int)) (pos + 1)
    else (res, pos)

def read_int (pat : List Nat) (pos : Nat) : Int × Nat :=
  read_int_go pat pos (pat.length + 1) 0 pos

/-- `Parser::quantifier`.  Inside the `\x7b` branch the C++ code dereferences
`*it` (for the comma test and the closing-bracket test) without checking
`it != end`; those two reads are modelled as `readPastEnd` errors. -/
def pQuantifier (pat : List Nat) (pos : Nat) : Except ParseErr (Quantifier × Nat) :=
  if hpos : pos < pat.length then
    let cp := pat.get ⟨pos, hpos⟩
    if cp = 42 then .ok (⟨.RepeatZeroOrMore, -1, -1⟩, pos + 1)
    else if cp = 43 then .ok (⟨.RepeatOneOrMore, -1, -1⟩, pos + 1)
    else if cp = 63 then .ok (⟨.Optional, -1, -1⟩, pos + 1)
    else if cp = 123 then
      let (mn, it1) := read_int pat (pos + 1)
      if h1 : it1 < pat.length then
        let (mx, it2) :=
          if pat.get ⟨it1, h1⟩ = 44 then read_int pat (it1 + 1)
          else (-1, it1)
        if h2 : it2 < pat.length then
          if pat.get ⟨it2, h2⟩ ≠ 125 then .error .expectedClosingBrace
          else .ok (⟨.RepeatMinMax, mn, mx⟩, it2 + 1)
        else .error .readPastEnd
      else .error .readPastEnd
    else .ok (⟨.One, -1, -1⟩, pos)
  else .ok (⟨.One, -1, -1⟩, pos)

/-- `Parser::assertion` (pure lookahead, returns `none` when no assertion). -/
def pAssertion (pat : List Nat) (pos : Nat) : Option (AstNode × Nat) :=
  if h : pos < pat.length then
    let cp := pat.get ⟨pos, h⟩
    if cp = 94 then some (make_ast_node .LineStart, pos + 1)
    else if cp = 36 then some (make_ast_node .LineEnd, pos + 1)
    else if cp = 92 then
      if h2 : pos + 1 < pat.length then
        let c2 := pat.get ⟨pos + 1, h2⟩
        if c2 = 98 then some (make_ast_node .WordBoundary, pos + 2)
        else if c2 = 66 then some (make_ast_node .NotWordBoundary, pos + 2)
        else if c2 = 96 then some (make_ast_node .SubjectBegin, pos + 2)
        else if c2 = 39 then some (make_ast_node .SubjectEnd, pos + 2)
        else none
      else none
    else none
  else none

/-- `Parser::atom_escape`.  Note the C++ function reads `*pos` without an end
check (reachable on a pattern ending in a lone backslash) and never advances
`pos`; both quirks are kept. -/
def pAtomEscape (pat : List Nat) (pos : Nat) : Except ParseErr (AstNode × Nat) :=
  if h : pos < pat.length then
    let cp := pat.get ⟨pos, h⟩
    if cp = 102 then .ok (make_ast_node .Literal 12, pos)
    else if cp = 110 then .ok (make_ast_node .Literal 10, pos)
    else if cp = 114 then .ok (make_ast_node .Literal 13, pos)
    else if cp = 116 then .ok (make_ast_node .Literal 9, pos)
    else if cp = 118 then .ok (make_ast_node .Literal 11, pos)
    else if isEscapeSyntaxChar cp then .ok (make_ast_node .Literal cp, pos)
    else .error .unknownEscape
  else .error .readPastEnd

/-- Body loop of `Parser::character_class`: collect ranges until `]`, end of
input, or an invalid range.  (Fuel bounds the loop; each step advances at
least one codepoint.) -/
def pClassLoop (pat : List Nat) : Nat → Nat → List CharRange →
    Except ParseErr (List CharRange × Nat)
  | 0, pos, acc => .ok (acc, pos)
  | fuel + 1, pos, acc =>
    if h : pos < pat.length then
      let cp := pat.get ⟨pos, h⟩
      if cp = 93 then .ok (acc, pos)
      else
        let pos1 := pos + 1
        if cp = 45 then pClassLoop pat fuel pos1 (acc ++ [⟨45, 0⟩])
        else if h1 : pos1 < pat.length then
          if pat.get ⟨pos1, h1⟩ = 45 then
            let pos2 := pos1 + 1
            if h2 : pos2 < pat.length then
              let mx := pat.get ⟨pos2, h2⟩
              if cp > mx then .error .invalidRange
              else pClassLoop pat fuel (pos2 + 1) (acc ++ [⟨cp, mx⟩])
            else .ok (acc, pos2)
          else pClassLoop pat fuel pos1 (acc ++ [⟨cp, 0⟩])
        else .ok (acc, pos1)
    else .ok (acc, pos)

/-- `Parser::character_class` (called with `pos` just past the `[`). -/
def pCharacterClass (pat : List Nat) (pos : Nat) (st : PState) :
    Except ParseErr (AstNode × Nat × PState) := do
  let negative := if h : pos < pat.length then pat.get ⟨pos, h⟩ == 94 else false
  let pos0 := if negative then pos + 1 else pos
  let (ranges, pos1) ← pClassLoop pat (pat.length + 1) pos0 []
  if pos1 = pat.length then .error .unclosedClass
  else
    let ranges_id := st.ranges.length
    let st1 := { st with ranges := st.ranges ++ [ranges] }
    .ok (make_ast_node (if negative then .NegativeCharRange else .CharRange) ranges_id,
         pos1 + 1, st1)

/-!
The C++ parser functions `disjunction`, `alternative`, `term` and `atom` are
mutually recursive.  To keep every definition kernel-reducible the cycle is
closed through a function parameter `disj` instead of a `mutual` block: each
function below receives the (fuelled) disjunction parser as an argument, and
`pDisjunction` itself is the only recursive definition, structurally on its
fuel. -/

/-- `Parser::atom`; `disj` is `Parser::disjunction` (for `(`…`)` groups),
taking position, capture index and state. -/
def pAtomF (pat : List Nat)
    (disj : Nat → Nat → PState → Except ParseErr (AstNode × Nat × PState))
    (pos : Nat) (st : PState) : Except ParseErr (Option AstNode × Nat × PState) :=
  if h : pos < pat.length then
    let cp := pat.get ⟨pos, h⟩
    if cp = 46 then .ok (some (make_ast_node .AnyChar), pos + 1, st)
    else if cp = 40 then do
      let cap := st.capture_count
      let st1 := { st with capture_count := st.capture_count + 1 }
      let (content, pos1, st2) ← disj (pos + 1) cap st1
      if h1 : pos1 < pat.length then
        if pat.get ⟨pos1, h1⟩ = 41 then .ok (some content, pos1 + 1, st2)
        else .error .unclosedParen
      else .error .unclosedParen
    else if cp = 92 then do
      let (node, pos1) ← pAtomEscape pat (pos + 1)
      .ok (some node, pos1, st)
    else if cp = 91 then do
      let (node, pos1, st1) ← pCharacterClass pat (pos + 1) st
      .ok (some node, pos1, st1)
    else if isAtomSyntaxChar cp then .ok (none, pos, st)
    else .ok (some (make_ast_node .Literal cp), pos + 1, st)
  else .ok (none, pos, st)

/-- `Parser::term`: an assertion, or an atom with its quantifier. -/
def pTermF (pat : List Nat)
    (disj : Nat → Nat → PState → Except ParseErr (AstNode × Nat × PState))
    (pos : Nat) (st : PState) : Except ParseErr (Option AstNode × Nat × PState) :=
  match pAssertion pat pos with
  | some (node, pos1) => .ok (some node, pos1, st)
  | none => do
    let (a?, pos1, st1) ← pAtomF pat disj pos st
    match a? with
    | none => .ok (none, pos1, st1)
    | some node => do
      let (q, pos2) ← pQuantifier pat pos1
      .ok (some (node.setQuantifier q), pos2, st1)

/-- The `while (auto node = term(...))` loop of `Parser::alternative`
(fuel bounds the iteration count; each accepted term consumes input). -/
def pTermLoopF (pat : List Nat)
    (disj : Nat → Nat → PState → Except ParseErr (AstNode × Nat × PState)) :
    Nat → Nat → PState → List AstNode →
    Except ParseErr (List AstNode × Nat × PState)
  | 0, _, _, _ => .error .parseError
  | fuel + 1, pos, st, acc => do
    let (node?, pos1, st1) ← pTermF pat disj pos st
    match node? with
    | none => .ok (acc, pos1, st1)
    | some node => pTermLoopF pat disj fuel pos1 st1 (acc ++ [node])

/-- `Parser::alternative`: one or more terms wrapped in a `Sequence` node. -/
def pAlternativeF (pat : List Nat)
    (disj : Nat → Nat → PState → Except ParseErr (AstNode × Nat × PState))
    (pos : Nat) (st : PState) : Except ParseErr (AstNode × Nat × PState) := do
  let (children, pos1, st1) ← pTermLoopF pat disj (pat.length + 2) pos st []
  if children.isEmpty then .error .parseError
  else .ok (AstNode.mk .Sequence NONE ⟨.One, -1, -1⟩ children, pos1, st1)

/-- `Parser::disjunction`; `capture` is the capture index to store on the
resulting node (`NONE` for the recursive calls past a `|`). -/
def pDisjunction (pat : List Nat) : Nat → Nat → Nat → PState →
    Except ParseErr (AstNode × Nat × PState)
  | 0, _, _, _ => .error .parseError
  | fuel + 1, pos, capture, st => do
    let (node, pos1, st1) ←
      pAlternativeF pat (fun p c s => pDisjunction pat fuel p c s) pos st
    if h : pos1 < pat.length then
      if pat.get ⟨pos1, h⟩ = 124 then do
        let (rhs, pos2, st2) ← pDisjunction pat fuel (pos1 + 1) NONE st1
        .ok (AstNode.mk .Alternation capture ⟨.One, -1, -1⟩ [node, rhs], pos2, st2)
      else .ok (node.setValue capture, pos1, st1)
    else .ok (node.setValue capture, pos1, st1)

/-- `Parser::parse`: capture count starts at 1 (group 0 is the overall match)
and the root disjunction receives capture index 0.  The fuel is an upper bound
on recursion depth, ample for any pattern of the given length. -/
def parse (pat : List Nat) : Except ParseErr ParsedRegex := do
  let (ast, _, st) ← pDisjunction pat (8 * pat.length + 16) 0 0 ⟨1, []⟩
  .ok ⟨ast, st.capture_count, st.ranges⟩

/-! ### Bytecode compiler

Bytecode is a `List Nat` of bytes.  `CompiledRegex::Offset` is a 32-bit
unsigned integer stored little-endian in four bytes.  Opcode bytes follow the
`CompiledRegex::Op` enum order. -/

def opMatch : Nat := 0
def opLiteral : Nat := 1
def opAnyChar : Nat := 2
def opCharRange : Nat := 3
def opNegativeCharRange : Nat := 4
def opJump : Nat := 5
def opSplitParent : Nat := 6
def opSplitChild : Nat := 7
def opSave : Nat := 8
def opLineStart : Nat := 9
def opLineEnd : Nat := 10
def opWordBoundary : Nat := 11
def opNotWordBoundary : Nat := 12
def opSubjectBegin : Nat := 13
def opSubjectEnd : Nat := 14

/-- `CompiledRegex`: the byte buffer and the save-slot count. -/
structure CompiledRegex where
  bytecode : List Nat
  save_count : Nat
deriving DecidableEq, Repr, Inhabited

/-- Append one byte (`bytecode.push_back`); bytes are stored modulo 256,
mirroring the truncation of a C++ `char`. -/
def push (p : CompiledRegex) (b : Nat) : CompiledRegex :=
  { p with bytecode := p.bytecode ++ [b % 256] }

/-- `push_codepoint`: append the UTF-8 encoding of a codepoint. -/
def push_codepoint (p : CompiledRegex) (cp : Nat) : CompiledRegex :=
  { p with bytecode := p.bytecode ++ utf8Encode cp }

/-- `alloc_offset`: reserve four zero bytes for a forward offset and return the
slot's position. -/
def alloc_offset (p : CompiledRegex) : CompiledRegex × Nat :=
  ({ p with bytecode := p.bytecode ++ [0, 0, 0, 0] }, p.bytecode.length)

/-- Write a 32-bit little-endian offset value at byte position `pos`
(the assignment through `get_offset`). -/
def writeOffsetBytes (bs : List Nat) (pos val : Nat) : List Nat :=
  ((((bs.set pos (val % 256)).set (pos + 1) (val / 256 % 256)).set
      (pos + 2) (val / 65536 % 256)).set (pos + 3) (val / 16777216 % 256))

def setOffset (p : CompiledRegex) (pos val : Nat) : CompiledRegex :=
  { p with bytecode := writeOffsetBytes p.bytecode pos val }

/-- Read a 32-bit little-endian offset at byte position `pos`
(`*reinterpret_cast<const Offset*>`). -/
def readOffset (bs : List Nat) (pos : Nat) : Nat :=
  bs.getD pos 0 + 256 * bs.getD (pos + 1) 0 + 65536 * bs.getD (pos + 2) 0 +
    16777216 * bs.getD (pos + 3) 0

/-- Emit the payload of a `CharRange`/`NegativeCharRange` instruction: counts,
then the single codepoints, then the min/max pairs. -/
def pushClassPayload (p : CompiledRegex) (ranges : List CharRange) : CompiledRegex :=
  let singles := ranges.filter (fun r => r.max == 0)
  let pairs := ranges.filter (fun r => !(r.max == 0))
  let p := push p singles.length
  let p := push p pairs.length
  let p := singles.foldl (fun q r => push_codepoint q r.min) p
  pairs.foldl (fun q r => push_codepoint (push_codepoint q r.min) r.max) p

mutual

/-- `compile_node_inner`: emit one copy of the node's own instruction(s),
bracketed by `Save 2c` / `Save 2c+1` when the node is a `Sequence` or
`Alternation` carrying capture index `c` (the slot bytes are single `char`s,
hence the modulo 256 in `push`).  Returns the program and the node's start
position. -/
def compile_node_inner (fuel : Nat) (ranges : List (List CharRange))
    (p : CompiledRegex) (node : AstNode) : CompiledRegex × Nat :=
  match fuel with
  | 0 => (p, p.bytecode.length)
  | fuel + 1 =>
    let start_pos := p.bytecode.length
    let capture :=
      if node.op = .Alternation ∨ node.op = .Sequence then node.value else NONE
    let p :=
      if capture ≠ NONE then push (push p opSave) (capture * 2) else p
    let (p, innerEnds) : CompiledRegex × List Nat :=
      match node.op with
      | .Literal => (push_codepoint (push p opLiteral) node.value, [])
      | .AnyChar => (push p opAnyChar, [])
      | .CharRange => (pushClassPayload (push p opCharRange) (ranges.getD node.value []), [])
      | .NegativeCharRange =>
        (pushClassPayload (push p opNegativeCharRange) (ranges.getD node.value []), [])
      | .Sequence =>
        (node.children.foldl (fun q c => (compile_node fuel ranges q c).1) p, [])
      | .Alternation =>
        match node.children with
        | [lhs, rhs] =>
          let (p, off) := alloc_offset (push p opSplitParent)
          let p := (compile_node fuel ranges p lhs).1
          let (p, endOff) := alloc_offset (push p opJump)
          let (p, right_pos) := compile_node fuel ranges p rhs
          (setOffset p off right_pos, [endOff])
        | _ => (p, [])
      | .LineStart => (push p opLineStart, [])
      | .LineEnd => (push p opLineEnd, [])
      | .WordBoundary => (push p opWordBoundary, [])
      | .NotWordBoundary => (push p opNotWordBoundary, [])
      | .SubjectBegin => (push p opSubjectBegin, [])
      | .SubjectEnd => (push p opSubjectEnd, [])
    let p := innerEnds.foldl (fun q o => setOffset q o q.bytecode.length) p
    let p :=
      if capture ≠ NONE then push (push p opSave) (capture * 2 + 1) else p
    (p, start_pos)

/-- `compile_node`: wrap `compile_node_inner` with the quantifier machinery
(leading skip split when the quantifier allows none, unrolled mandatory
copies, loop-back split or optional copies, then backpatch all skips). -/
def compile_node (fuel : Nat) (ranges : List (List CharRange))
    (p : CompiledRegex) (node : AstNode) : CompiledRegex × Nat :=
  match fuel with
  | 0 => (p, p.bytecode.length)
  | fuel + 1 =>
    let pos := p.bytecode.length
    let q := node.quantifier
    let (p, skips) : CompiledRegex × List Nat :=
      if q.allows_none then
        let (p, o) := alloc_offset (push p opSplitParent)
        (p, [o])
      else (p, [])
    let (p, inner_pos) := compile_node_inner fuel ranges p node
    let (p, inner_pos) :=
      (List.range (q.min - 1).toNat).foldl
        (fun pr _ => compile_node_inner fuel ranges pr.1 node) (p, inner_pos)
    let (p, skips) :=
      if q.allows_infinite_repeat then
        let (p, o) := alloc_offset (push p opSplitChild)
        (setOffset p o inner_pos, skips)
      else
        (List.range (q.max - max 1 q.min).toNat).foldl
          (fun pr _ =>
            let (p, o) := alloc_offset (push pr.1 opSplitParent)
            let (p, _) := compile_node_inner fuel ranges p node
            (p, pr.2 ++ [o]))
          (p, skips)
    let p := skips.foldl (fun q o => setOffset q o q.bytecode.length) p
    (p, pos)

end

/-- `prefix_size`: three opcode bytes plus two offsets. -/
def prefix_size : Nat := 11

/-- `write_search_prefix` (renamed): the implicit lazy `.*` emitted at the
front of every program — `Split_PrioritizeChild → prefix_size`, `AnyChar`,
`Split_PrioritizeParent → 5` (back to the `AnyChar`). -/
def write_search_prelude (p : CompiledRegex) : CompiledRegex :=
  let (p, o1) := alloc_offset (push p opSplitChild)
  let p := setOffset p o1 prefix_size
  let p := push p opAnyChar
  let (p, o2) := alloc_offset (push p opSplitParent)
  setOffset p o2 (1 + 4)

mutual

/-- A depth bound for the mutual compile recursion. -/
def astFuel : AstNode → Nat
  | .mk _ _ _ cs => 2 + astFuelList cs

def astFuelList : List AstNode → Nat
  | [] => 0
  | c :: cs => astFuel c + astFuelList cs

end

/-- `compile(ParsedRegex)`: search prelude, root node, final `Match`;
`save_count` is twice the capture count. -/
def compileParsed (pr : ParsedRegex) : CompiledRegex :=
  let p := write_search_prelude ⟨[], 0⟩
  let p := (compile_node (2 * astFuel pr.ast) pr.ranges p pr.ast).1
  let p := push p opMatch
  { p with save_count := pr.capture_count * 2 }

/-- `compile(StringView)`: parse then compile; a parse error yields the empty
program (the claims below only use it on well-formed patterns). -/
def compileL (pat : List Nat) : CompiledRegex :=
  match parse pat with
  | .ok pr => compileParsed pr
  | .error _ => ⟨[], 0⟩

/-! ### Threaded VM (`ThreadedRegexVM`)

A thread is an instruction pointer (byte offset into the bytecode, `none`
standing for the C++ null pointer of dead threads) plus a save-slot vector of
byte offsets into the subject.  The subject is a list of codepoints; the VM
cursor `pos` is a codepoint index, `pos = input.length` meaning `m_end`. -/

/-- `ThreadedRegexVM::Thread`. -/
structure Thread where
  inst : Option Nat
  saves : List (Option Nat)
deriving DecidableEq, Repr, Inhabited

/-- `StepResult`. -/
inductive StepResult where
  | Consumed | Matched | Failed
deriving DecidableEq, Repr, Inhabited

/-- Modelled from the spec: the word-character predicate `is_word` is an
external classification utility (`unicode.hh`, not under `src/`); the spec
calls it "codepoint classification into word character" — alphanumerics and
underscore. -/
def isWord (cp : Nat) : Bool :=
  (48 ≤ cp && cp ≤ 57) || (65 ≤ cp && cp ≤ 90) || (97 ≤ cp && cp ≤ 122) || cp == 95

/-- `ThreadedRegexVM::is_line_start`. -/
def is_line_start (input : List Nat) (pos : Nat) : Bool :=
  pos == 0 || input.getD (pos - 1) 0 == 10

/-- `ThreadedRegexVM::is_line_end`. -/
def is_line_end (input : List Nat) (pos : Nat) : Bool :=
  pos == input.length || input.getD pos 0 == 10

/-- `ThreadedRegexVM::is_word_boundary`. -/
def is_word_boundary (input : List Nat) (pos : Nat) : Bool :=
  pos == 0 || pos == input.length ||
    (isWord (input.getD (pos - 1) 0) != isWord (input.getD pos 0))

/-- `ThreadedRegexVM::add_thread`: insert a thread at `index` unless a thread
(live or dead) already has instruction pointer `pos`. -/
def add_thread (ts : List Thread) (index : Nat) (pos : Nat)
    (saves : List (Option Nat)) : List Thread :=
  if ts.any (fun t => t.inst == some pos) then ts
  else ts.insertIdx index ⟨some pos, saves⟩

/-- Fuel bound for one `step` chain (ample for every program considered: a
chain visits each non-consuming instruction at most a few times before the
C++ loop would also diverge). -/
def stepFuel (prog : List Nat) : Nat := prog.length + 8

/-- `ThreadedRegexVM::step`: run thread `i` until it consumes, matches or
fails; splits insert new threads at `i + 1` (mutating the thread list), and a
`Jump` onto an address another thread already occupies drops the stepping
thread.  The thread's instruction pointer is advanced past the opcode byte as
it is read, exactly as the C++ `*thread.inst++`. -/
def stepGo (prog input : List Nat) (pos : Nat) :
    Nat → List Thread → Nat → StepResult × List Thread
  | 0, ts, _ => (.Failed, ts)
  | fuel + 1, ts, i =>
    let t := ts.getD i default
    match t.inst with
    | none => (.Failed, ts)
    | some ip =>
      let cp := if pos = input.length then 0 else input.getD pos 0
      let op := prog.getD ip 999
      let ts := ts.set i ⟨some (ip + 1), t.saves⟩
      if op = opLiteral then
        let (c, nip) := utf8Read prog (ip + 1)
        let ts := ts.set i ⟨some nip, t.saves⟩
        if c = cp then (.Consumed, ts) else (.Failed, ts)
      else if op = opAnyChar then (.Consumed, ts)
      else if op = opJump then
        let target := readOffset prog (ip + 1)
        if ts.any (fun u => u.inst == some target) then (.Failed, ts)
        else stepGo prog input pos fuel (ts.set i ⟨some target, t.saves⟩) i
      else if op = opSplitParent then
        let target := readOffset prog (ip + 1)
        let ts := add_thread ts (i + 1) target t.saves
        let ts := ts.set i ⟨some (ip + 5), t.saves⟩
        stepGo prog input pos fuel ts i
      else if op = opSplitChild then
        let ts := add_thread ts (i + 1) (ip + 5) t.saves
        let target := readOffset prog (ip + 1)
        let ts := ts.set i ⟨some target, t.saves⟩
        stepGo prog input pos fuel ts i
      else if op = opSave then
        let idx := prog.getD (ip + 1) 0
        let ts := ts.set i ⟨some (ip + 2), t.saves.set idx (some (byteOffset input pos))⟩
        stepGo prog input pos fuel ts i
      else if op = opCharRange ∨ op = opNegativeCharRange then
        let single_count := prog.getD (ip + 1) 0
        let range_count := prog.getD (ip + 2) 0
        let (singles, p1) := utf8ReadN prog (ip + 3) single_count
        let (pairCps, payloadEnd) := utf8ReadN prog p1 (2 * range_count)
        let hit := singles.contains cp ||
          (List.range range_count).any (fun k =>
            pairCps.getD (2 * k) 0 ≤ cp && cp ≤ pairCps.getD (2 * k + 1) 0)
        let ts := ts.set i ⟨some payloadEnd, t.saves⟩
        if op = opCharRange then
          (if hit then (.Consumed, ts) else (.Failed, ts))
        else
          (if hit then (.Failed, ts) else (.Consumed, ts))
      else if op = opLineStart then
        if is_line_start input pos then stepGo prog input pos fuel ts i
        else (.Failed, ts)
      else if op = opLineEnd then
        if is_line_end input pos then stepGo prog input pos fuel ts i
        else (.Failed, ts)
      else if op = opWordBoundary then
        if is_word_boundary input pos then stepGo prog input pos fuel ts i
        else (.Failed, ts)
      else if op = opNotWordBoundary then
        if is_word_boundary input pos then (.Failed, ts)
        else stepGo prog input pos fuel ts i
      else if op = opSubjectBegin then
        if pos = 0 then stepGo prog input pos fuel ts i else (.Failed, ts)
      else if op = opSubjectEnd then
        if pos = input.length then stepGo prog input pos fuel ts i
        else (.Failed, ts)
      else if op = opMatch then
        (.Matched, ts.set i ⟨none, t.saves⟩)
      else
        stepGo prog input pos fuel ts i

/-- Outcome of the per-position thread loop: an early `return` from `exec`
(with the value returned and the captures at that moment), or fall-through to
the next input position. -/
inductive MidOut where
  | ret (b : Bool) (captures : List (Option Nat))
  | next (ts : List Thread) (captures : List (Option Nat)) (found : Bool)
deriving DecidableEq, Repr

/-- Fuel bound for one round's `for (int i = 0; i < m_threads.size(); ++i)`
loop (iteration count can grow as splits insert threads). -/
def loop_fuel (prog : List Nat) : Nat := (prog.length + 8) * (prog.length + 8)

/-- The mid-input thread loop of `exec`: step each thread in priority order;
`Matched` is ignored in full-match mode before the input's end, otherwise it
records captures, truncates lower-priority threads and — unless `longest` —
returns true; `Failed` marks the thread dead. -/
def threads_loop (prog input : List Nat) (pos : Nat) (matchMode longest : Bool) :
    Nat → Nat → List Thread → List (Option Nat) → Bool → MidOut
  | 0, _, ts, caps, found => .next ts caps found
  | fuel + 1, i, ts, caps, found =>
    if i < ts.length then
      match stepGo prog input pos (stepFuel prog) ts i with
      | (.Matched, ts') =>
        if matchMode then threads_loop prog input pos matchMode longest fuel (i + 1) ts' caps found
        else
          let caps' := (ts'.getD i default).saves
          let ts'' := ts'.take i
          if longest then threads_loop prog input pos matchMode longest fuel (i + 1) ts'' caps' true
          else .ret true caps'
      | (.Failed, ts') =>
        let dead := ts'.set i ⟨none, (ts'.getD i default).saves⟩
        threads_loop prog input pos matchMode longest fuel (i + 1) dead caps found
      | (.Consumed, ts') =>
        threads_loop prog input pos matchMode longest fuel (i + 1) ts' caps found
    else .next ts caps found

/-- One full input position of `exec`'s outer loop: run the thread loop, then
compact dead threads and fail if none remain. -/
inductive RoundOut where
  | ret (b : Bool) (captures : List (Option Nat))
  | next (ts : List Thread) (captures : List (Option Nat)) (found : Bool)
deriving DecidableEq, Repr

def execRound (prog input : List Nat) (matchMode longest : Bool) (pos : Nat)
    (ts : List Thread) (caps : List (Option Nat)) (found : Bool) : RoundOut :=
  match threads_loop prog input pos matchMode longest (loop_fuel prog) 0 ts caps found with
  | .ret b c => .ret b c
  | .next ts' caps' found' =>
    let ts'' := ts'.filter (fun t => !(t.inst == none))
    if ts''.isEmpty then .ret false caps'
    else .next ts'' caps' found'

/-- The final loop of `exec`, after the input is exhausted: give each thread
one more step so it can see end-of-input assertions and reach `Match` (match
mode is irrelevant here; `Failed` threads are simply left behind). -/
def final_loop (prog input : List Nat) (pos : Nat) (longest : Bool) :
    Nat → Nat → List Thread → List (Option Nat) → Bool → Bool × List (Option Nat)
  | 0, _, _, caps, found => (found, caps)
  | fuel + 1, i, ts, caps, found =>
    if i < ts.length then
      match stepGo prog input pos (stepFuel prog) ts i with
      | (.Matched, ts') =>
        let caps' := (ts'.getD i default).saves
        let ts'' := ts'.take i
        if longest then final_loop prog input pos longest fuel (i + 1) ts'' caps' true
        else (true, caps')
      | (_, ts') => final_loop prog input pos longest fuel (i + 1) ts' caps found
    else (found, caps)

/-- The outer position loop of `exec`: `n` is the number of input positions
still to scan; when it reaches zero the cursor sits at `m_end` and the final
loop runs. -/
def exec_loop (prog input : List Nat) (matchMode longest : Bool) :
    Nat → Nat → List Thread → List (Option Nat) → Bool → Bool × List (Option Nat)
  | 0, pos, ts, caps, found => final_loop prog input pos longest (loop_fuel prog) 0 ts caps found
  | n + 1, pos, ts, caps, found =>
    match execRound prog input matchMode longest pos ts caps found with
    | .ret b c => (b, c)
    | .next ts' c' f' => exec_loop prog input matchMode longest n (pos + 1) ts' c' f'

/-- The single seed thread of `exec`: offset `prefix_size` in full-match
(anchored) mode, offset 0 in search mode, all save slots unset
(`add_thread(0, match ? prefix_size : 0, ...)`). -/
def seed_threads (saveCount : Nat) (matchMode : Bool) : List Thread :=
  add_thread [] 0 (if matchMode then prefix_size else 0)
    (List.replicate saveCount none)

/-- `ThreadedRegexVM::exec`.  `captures0` is the VM's `m_captures` member
before the call; the returned pair is the boolean result together with
`m_captures` after the call. -/
def exec (p : CompiledRegex) (input : List Nat) (matchMode longest : Bool)
    (captures0 : List (Option Nat)) : Bool × List (Option Nat) :=
  exec_loop p.bytecode input matchMode longest input.length 0
    (seed_threads p.save_count matchMode) captures0 false

/-- Run exactly `n` rounds of `exec`'s outer loop and return the VM state
(thread list, captures, found flag) at that point; `none` if `exec` returned
within those rounds.  Used to observe intermediate states of an execution. -/
def run_rounds (prog input : List Nat) (matchMode longest : Bool) :
    Nat → Nat → List Thread → List (Option Nat) → Bool →
    Option (List Thread × List (Option Nat) × Bool)
  | 0, _, ts, caps, found => some (ts, caps, found)
  | n + 1, pos, ts, caps, found =>
    match execRound prog input matchMode longest pos ts caps found with
    | .ret _ _ => none
    | .next ts' c' f' => run_rounds prog input matchMode longest n (pos + 1) ts' c' f'

/-! ### Auxiliary definitions for the claims -/

/-- The word-boundary predicate as worded by the spec (for comparison with the
code's `is_word_boundary`): "succeed iff the word-character predicate differs
across the current position (treat positions at the input boundary as
non-word on the outside)". -/
def specWordBoundary (input : List Nat) (pos : Nat) : Bool :=
  let wordBefore := decide (0 < pos) && isWord (input.getD (pos - 1) 0)
  let wordAt := decide (pos < input.length) && isWord (input.getD pos 0)
  wordBefore != wordAt

/-- The error produced by `parse`, if any. -/
def parseErr (pat : List Nat) : Option ParseErr :=
  match parse pat with
  | .ok _ => none
  | .error e => some e

/-- Preservation predicate for the mid-input thread loop: an early return
carries `true`, and falling through to the next position leaves the captures
and the found flag untouched. -/
def MidPres (caps : List (Option Nat)) (found : Bool) : MidOut → Prop
  | .ret b _ => b = true
  | .next _ c f => c = caps ∧ f = found

/-- Preservation predicate for a whole round: a `false` early return carries
the incoming captures; falling through leaves captures and found untouched. -/
def RoundPres (caps : List (Option Nat)) (found : Bool) : RoundOut → Prop
  | .ret b c => b = false → c = caps
  | .next _ c f => c = caps ∧ f = found

/-! ### Concrete patterns, ASTs and programs used by the claims

Each claim pattern is given three times: the pattern's codepoints (`patX`),
the AST the parser produces for it (`astX`), and the bytecode program the
compiler produces (`progX`).  The theorems `parse_patX : parse patX = …` and
`compileL_patX : compileL patX = progX` below tie the three together, so every
statement about a `progX` is a statement about compiling and running the
pattern. -/

/-- Shorthand for the default quantifier (exactly one). -/
def qOne : Quantifier := ⟨.One, -1, -1⟩

/-- Shorthand for a literal-codepoint leaf node. -/
def lit (c : Nat) : AstNode := .mk .Literal c qOne []

/-- Pattern `a`. -/
def patA : List Nat := [97]

def astA : AstNode := .mk .Sequence 0 qOne [lit 97]

def progA : CompiledRegex :=
  ⟨[7, 11, 0, 0, 0, 2, 6, 5, 0, 0, 0, 8, 0, 1, 97, 8, 1, 0], 2⟩

/-- Pattern `\b` (codepoints `\` `b`). -/
def patWB : List Nat := [92, 98]

def astWB : AstNode := .mk .Sequence 0 qOne [.mk .WordBoundary NONE qOne []]

def progWB : CompiledRegex :=
  ⟨[7, 11, 0, 0, 0, 2, 6, 5, 0, 0, 0, 8, 0, 11, 8, 1, 0], 2⟩

/-- Pattern `aa*b`. -/
def patC3 : List Nat := [97, 97, 42, 98]

def astC3 : AstNode :=
  .mk .Sequence 0 qOne
    [lit 97, .mk .Literal 97 ⟨.RepeatZeroOrMore, -1, -1⟩ [], lit 98]

def progC3 : CompiledRegex :=
  ⟨[7, 11, 0, 0, 0, 2, 6, 5, 0, 0, 0, 8, 0, 1, 97, 6, 27, 0, 0, 0,
    1, 97, 7, 20, 0, 0, 0, 1, 98, 8, 1, 0], 2⟩

/-- Pattern `(ab|b)x`. -/
def patC4 : List Nat := [40, 97, 98, 124, 98, 41, 120]

def astC4 : AstNode :=
  .mk .Sequence 0 qOne
    [.mk .Alternation 1 qOne
       [.mk .Sequence NONE qOne [lit 97, lit 98],
        .mk .Sequence NONE qOne [lit 98]],
     lit 120]

def progC4 : CompiledRegex :=
  ⟨[7, 11, 0, 0, 0, 2, 6, 5, 0, 0, 0, 8, 0, 8, 2, 6, 29, 0, 0, 0,
    1, 97, 1, 98, 5, 31, 0, 0, 0, 1, 98, 8, 3, 1, 120, 8, 1, 0], 4⟩

/-- Pattern `(a|ab)`. -/
def patAlt : List Nat := [40, 97, 124, 97, 98, 41]

def astAlt : AstNode :=
  .mk .Sequence 0 qOne
    [.mk .Alternation 1 qOne
       [.mk .Sequence NONE qOne [lit 97],
        .mk .Sequence NONE qOne [lit 97, lit 98]]]

def progAlt : CompiledRegex :=
  ⟨[7, 11, 0, 0, 0, 2, 6, 5, 0, 0, 0, 8, 0, 8, 2, 6, 27, 0, 0, 0,
    1, 97, 5, 31, 0, 0, 0, 1, 97, 1, 98, 8, 3, 8, 1, 0], 4⟩

/-- Pattern `(a*)`. -/
def patStar : List Nat := [40, 97, 42, 41]

def astStar : AstNode :=
  .mk .Sequence 0 qOne
    [.mk .Sequence 1 qOne [.mk .Literal 97 ⟨.RepeatZeroOrMore, -1, -1⟩ []]]

def progStar : CompiledRegex :=
  ⟨[7, 11, 0, 0, 0, 2, 6, 5, 0, 0, 0, 8, 0, 8, 2, 6, 27, 0, 0, 0,
    1, 97, 7, 20, 0, 0, 0, 8, 3, 8, 1, 0], 4⟩

/-- Pattern `^(foo|qux|baz)+(bar)?baz$`. -/
def patC5 : List Nat :=
  [94, 40, 102, 111, 111, 124, 113, 117, 120, 124, 98, 97, 122, 41, 43,
   40, 98, 97, 114, 41, 63, 98, 97, 122, 36]

def astC5 : AstNode :=
  .mk .Sequence 0 qOne
    [.mk .LineStart NONE qOne [],
     .mk .Alternation 1 ⟨.RepeatOneOrMore, -1, -1⟩
       [.mk .Sequence NONE qOne [lit 102, lit 111, lit 111],
        .mk .Alternation NONE qOne
          [.mk .Sequence NONE qOne [lit 113, lit 117, lit 120],
           .mk .Sequence NONE qOne [lit 98, lit 97, lit 122]]],
     .mk .Sequence 2 ⟨.Optional, -1, -1⟩ [lit 98, lit 97, lit 114],
     lit 98, lit 97, lit 122,
     .mk .LineEnd NONE qOne []]

def progC5 : CompiledRegex :=
  ⟨[7, 11, 0, 0, 0, 2, 6, 5, 0, 0, 0, 8, 0, 9, 8, 2, 6, 32, 0, 0, 0,
    1, 102, 1, 111, 1, 111, 5, 54, 0, 0, 0, 6, 48, 0, 0, 0,
    1, 113, 1, 117, 1, 120, 5, 54, 0, 0, 0, 1, 98, 1, 97, 1, 122,
    8, 3, 7, 14, 0, 0, 0, 6, 76, 0, 0, 0, 8, 4, 1, 98, 1, 97, 1, 114,
    8, 5, 1, 98, 1, 97, 1, 122, 10, 8, 1, 0], 6⟩

/-- Pattern `` \` ``…`` \' `` with a bounded repeat: subject-begin, `a`
repeated 3 to 5 times, `b`, subject-end (codepoints for
`\x60`-escape, `a`, `\x7b`, `3`, `,`, `5`, `\x7d`, `b`, `\x27`-escape). -/
def patC6 : List Nat := [92, 96, 97, 123, 51, 44, 53, 125, 98, 92, 39]

def astC6 : AstNode :=
  .mk .Sequence 0 qOne
    [.mk .SubjectBegin NONE qOne [],
     .mk .Literal 97 ⟨.RepeatMinMax, 3, 5⟩ [],
     lit 98,
     .mk .SubjectEnd NONE qOne []]

def progC6 : CompiledRegex :=
  ⟨[7, 11, 0, 0, 0, 2, 6, 5, 0, 0, 0, 8, 0, 13, 1, 97, 1, 97, 1, 97,
    6, 34, 0, 0, 0, 1, 97, 6, 34, 0, 0, 0, 1, 97, 1, 98, 14, 8, 1, 0], 2⟩

/-- Pattern `a` + `\x7b,3\x7d` + `b` (`a` quantified by min-missing, max 3,
then `b`). -/
def patC8 : List Nat := [97, 123, 44, 51, 125, 98]

def astC8 : AstNode :=
  .mk .Sequence 0 qOne [.mk .Literal 97 ⟨.RepeatMinMax, -1, 3⟩ [], lit 98]

def progC8 : CompiledRegex :=
  ⟨[7, 11, 0, 0, 0, 2, 6, 5, 0, 0, 0, 8, 0, 6, 34, 0, 0, 0, 1, 97,
    6, 34, 0, 0, 0, 1, 97, 6, 34, 0, 0, 0, 1, 97, 1, 98, 8, 1, 0], 2⟩

/-- Pattern `a` + `\x7b,0\x7d` + `b` (`a` quantified by min-missing, max 0,
then `b`). -/
def patC8z : List Nat := [97, 123, 44, 48, 125, 98]

def astC8z : AstNode :=
  .mk .Sequence 0 qOne [.mk .Literal 97 ⟨.RepeatMinMax, -1, 0⟩ [], lit 98]

def progC8z : CompiledRegex :=
  ⟨[7, 11, 0, 0, 0, 2, 6, 5, 0, 0, 0, 8, 0, 6, 20, 0, 0, 0,
    1, 97, 1, 98, 8, 1, 0], 2⟩

/-! ### Parsing and compilation of the concrete patterns

Each pattern's parse tree and compiled program are fixed by these lemmas, so
the claim theorems below about a `progX` are facts about `compileL patX`. -/

theorem parse_patA : parse patA = .ok ⟨astA, 1, []⟩ := rfl

theorem compileL_patA : compileL patA = progA := by
  unfold compileL; rw [parse_patA]; decide

theorem parse_patWB : parse patWB = .ok ⟨astWB, 1, []⟩ := rfl

theorem compileL_patWB : compileL patWB = progWB := by
  unfold compileL; rw [parse_patWB]; decide

theorem parse_patC3 : parse patC3 = .ok ⟨astC3, 1, []⟩ := rfl

theorem compileL_patC3 : compileL patC3 = progC3 := by
  unfold compileL; rw [parse_patC3]; decide

theorem parse_patC4 : parse patC4 = .ok ⟨astC4, 2, []⟩ := rfl

theorem compileL_patC4 : compileL patC4 = progC4 := by
  unfold compileL; rw [parse_patC4]; decide

theorem parse_patAlt : parse patAlt = .ok ⟨astAlt, 2, []⟩ := rfl

theorem compileL_patAlt : compileL patAlt = progAlt := by
  unfold compileL; rw [parse_patAlt]; decide

theorem parse_patStar : parse patStar = .ok ⟨astStar, 2, []⟩ := rfl

theorem compileL_patStar : compileL patStar = progStar := by
  unfold compileL; rw [parse_patStar]; decide

theorem parse_patC5 : parse patC5 = .ok ⟨astC5, 3, []⟩ := rfl

theorem compileL_patC5 : compileL patC5 = progC5 := by
  unfold compileL; rw [parse_patC5]; decide

theorem parse_patC6 : parse patC6 = .ok ⟨astC6, 1, []⟩ := rfl

theorem compileL_patC6 : compileL patC6 = progC6 := by
  unfold compileL; rw [parse_patC6]; decide

theorem parse_patC8 : parse patC8 = .ok ⟨astC8, 1, []⟩ := rfl

theorem compileL_patC8 : compileL patC8 = progC8 := by
  unfold compileL; rw [parse_patC8]; decide

theorem parse_patC8z : parse patC8z = .ok ⟨astC8z, 1, []⟩ := rfl

theorem compileL_patC8z : compileL patC8z = progC8z := by
  unfold compileL; rw [parse_patC8z]; decide

/-! ### Helper lemmas -/

/-- The boolean `is_word_boundary` test, spelled out as a proposition. -/
theorem is_word_boundary_iff (input : List Nat) (pos : Nat) :
    is_word_boundary input pos = true ↔
      (pos = 0 ∨ pos = input.length ∨
        isWord (input.getD (pos - 1) 0) ≠ isWord (input.getD pos 0)) := by
  simp [is_word_boundary, Bool.or_eq_true, beq_iff_eq, bne_iff_ne, or_assoc]

/-- The mid-input thread loop either returns `true` early or leaves the
captures and the found flag untouched, provided the run is in full-match mode
or not in longest mode. -/
theorem threads_loop_pres (prog input : List Nat) (pos : Nat) (mm l : Bool)
    (caps : List (Option Nat)) (found : Bool) (h : mm = true ∨ l = false) :
    ∀ fuel i ts, MidPres caps found (threads_loop prog input pos mm l fuel i ts caps found) := by
  intro fuel
  induction fuel with
  | zero => intro i ts; exact ⟨rfl, rfl⟩
  | succ n ih =>
    intro i ts
    unfold threads_loop
    by_cases hi : i < ts.length
    · rw [if_pos hi]
      rcases hres : stepGo prog input pos (stepFuel prog) ts i with ⟨res, ts'⟩
      cases res
      · exact ih (i + 1) ts'
      · rcases h with hmm | hl
        · subst hmm; exact ih (i + 1) ts'
        · by_cases hmm : mm
          · subst hmm; exact ih (i + 1) ts'
          · simp only [Bool.not_eq_true] at hmm
            subst hmm; subst hl
            exact rfl
      · exact ih (i + 1) _
    · rw [if_neg hi]; exact ⟨rfl, rfl⟩

/-- One whole round of `exec` preserves captures on its fall-through and
false-return paths, under the same mode hypothesis. -/
theorem execRound_pres (prog input : List Nat) (mm l : Bool)
    (h : mm = true ∨ l = false) (pos : Nat) (ts : List Thread)
    (caps : List (Option Nat)) (found : Bool) :
    RoundPres caps found (execRound prog input mm l pos ts caps found) := by
  have hm := threads_loop_pres prog input pos mm l caps found h (loop_fuel prog) 0 ts
  unfold execRound
  obtain ⟨r, hE⟩ : ∃ r, threads_loop prog input pos mm l (loop_fuel prog) 0 ts caps found = r :=
    ⟨_, rfl⟩
  rw [hE] at hm ⊢
  cases r with
  | ret b c =>
    intro hb
    subst hb
    have hb2 : false = true := hm
    exact absurd hb2 (by decide)
  | next ts' c' f' =>
    obtain ⟨hc, hf⟩ := hm
    subst hc; subst hf
    dsimp only
    by_cases he : (List.filter (fun t => !(t.inst == none)) ts').isEmpty = true
    · rw [if_pos he]
      exact fun _ => rfl
    · rw [if_neg he]
      exact ⟨rfl, rfl⟩

/-- In the final loop, a found flag already set forces a `true` result. -/
theorem final_loop_found (prog input : List Nat) (pos : Nat) (l : Bool) :
    ∀ fuel i ts caps, (final_loop prog input pos l fuel i ts caps true).1 = true := by
  intro fuel
  induction fuel with
  | zero => intro i ts caps; rfl
  | succ n ih =>
    intro i ts caps
    unfold final_loop
    by_cases hi : i < ts.length
    · rw [if_pos hi]
      rcases hres : stepGo prog input pos (stepFuel prog) ts i with ⟨res, ts'⟩
      cases res
      · exact ih (i + 1) ts' caps
      · by_cases hl : l
        · subst hl; exact ih (i + 1) _ _
        · simp only [Bool.not_eq_true] at hl
          subst hl; rfl
      · exact ih (i + 1) ts' caps
    · rw [if_neg hi]

/-- If the final loop reports `false`, it never assigned the captures. -/
theorem final_loop_fail_caps (prog input : List Nat) (pos : Nat) (l : Bool) :
    ∀ fuel i ts caps found,
      (final_loop prog input pos l fuel i ts caps found).1 = false →
      (final_loop prog input pos l fuel i ts caps found).2 = caps := by
  intro fuel
  induction fuel with
  | zero => intro i ts caps found _; rfl
  | succ n ih =>
    intro i ts caps found hf
    unfold final_loop at hf ⊢
    by_cases hi : i < ts.length
    · rw [if_pos hi] at hf ⊢
      rcases hres : stepGo prog input pos (stepFuel prog) ts i with ⟨res, ts'⟩
      rw [hres] at hf
      cases res
      · exact ih (i + 1) ts' caps found hf
      · by_cases hl : l
        · subst hl
          have hf2 : (final_loop prog input pos true n (i + 1) (List.take i ts')
              ((ts'.getD i default).saves) true).1 = false := hf
          have ff := final_loop_found prog input pos true n (i + 1) (List.take i ts')
            ((ts'.getD i default).saves)
          exact absurd (hf2 ▸ ff) (by decide)
        · simp only [Bool.not_eq_true] at hl
          subst hl
          have hf2 : (true : Bool) = false := hf
          exact absurd hf2 (by decide)
      · exact ih (i + 1) ts' caps found hf
    · rw [if_neg hi] at hf ⊢

/-- If the outer loop of `exec` reports `false` (full-match mode, or longest
not requested), the captures come out exactly as they went in. -/
theorem exec_loop_fail_caps (prog input : List Nat) (mm l : Bool)
    (h : mm = true ∨ l = false) :
    ∀ n pos ts caps found,
      (exec_loop prog input mm l n pos ts caps found).1 = false →
      (exec_loop prog input mm l n pos ts caps found).2 = caps := by
  intro n
  induction n with
  | zero =>
    intro pos ts caps found hf
    exact final_loop_fail_caps prog input pos l (loop_fuel prog) 0 ts caps found hf
  | succ n ih =>
    intro pos ts caps found hf
    have hr := execRound_pres prog input mm l h pos ts caps found
    unfold exec_loop at hf ⊢
    obtain ⟨r, hE⟩ : ∃ r, execRound prog input mm l pos ts caps found = r := ⟨_, rfl⟩
    rw [hE] at hf hr ⊢
    cases r with
    | ret b c => exact hr hf
    | next ts' c' f' =>
      obtain ⟨hc, hfnd⟩ := hr
      subst hc; subst hfnd
      exact ih (pos + 1) ts' c' f' hf

/-! ### The claims -/

/-- Claim C1 (corrected).  The claim states the seed offsets the wrong way
round: `exec` seeds its single thread at `add_thread(0, match ? prefix_size :
0, …)`, i.e. at offset `prefix_size` when full-match (anchored) mode is
requested and at offset 0 when search mode is requested.  Search-mode
execution therefore begins at offset 0, running the implicit lazy `.*`
prelude, while anchored execution begins at `prefix_size`, skipping it.  The
`exec` facts on the pattern `a` show the behavioural consequence: anchored
execution of `a` does not match `"xa"`, while search execution finds `a` at
offset 1. -/
theorem c1_seed_offsets :
    (∀ saveCount : Nat,
      seed_threads saveCount true = [⟨some prefix_size, List.replicate saveCount none⟩] ∧
      seed_threads saveCount false = [⟨some 0, List.replicate saveCount none⟩]) ∧
    prefix_size = 11 ∧
    compileL patA = progA ∧
    exec progA (s2c "xa") true false [] = (false, []) ∧
    exec progA (s2c "xa") false false [] = (true, [some 1, some 2]) :=
  ⟨fun _ => ⟨rfl, rfl⟩, rfl, compileL_patA, by decide, by decide⟩

/-- Claim C1 counterexample: the claim says the seed thread sits at bytecode
offset 0 in anchored mode and at `prefix_size` in search mode; in fact the
anchored seed thread's instruction pointer is `prefix_size = 11 ≠ 0` and the
search seed thread's is 0. -/
theorem c1_seed_not_at_zero :
    (seed_threads 2 true).map Thread.inst = [some prefix_size] ∧
    (seed_threads 2 false).map Thread.inst = [some 0] ∧
    prefix_size ≠ 0 :=
  ⟨by decide, by decide, by decide⟩

/-- Claim C2 (corrected).  A `WordBoundary` instruction succeeds iff the
position is at the input's begin, at its end, or the word-character predicate
differs between the previous and the current codepoint — positions at the
input boundary succeed unconditionally rather than being treated as non-word
on the outside.  `NotWordBoundary` is the exact complement. -/
theorem c2_word_boundary_step : ∀ (input : List Nat) (pos : Nat),
    ((stepGo [opWordBoundary, opMatch] input pos 4 [⟨some 0, []⟩] 0).1 = .Matched ↔
      (pos = 0 ∨ pos = input.length ∨
        isWord (input.getD (pos - 1) 0) ≠ isWord (input.getD pos 0))) ∧
    ((stepGo [opNotWordBoundary, opMatch] input pos 4 [⟨some 0, []⟩] 0).1 = .Matched ↔
      ¬(pos = 0 ∨ pos = input.length ∨
        isWord (input.getD (pos - 1) 0) ≠ isWord (input.getD pos 0))) := by
  intro input pos
  have hWB : stepGo [opWordBoundary, opMatch] input pos 4 [⟨some 0, []⟩] 0 =
      (if is_word_boundary input pos then (.Matched, [⟨none, []⟩])
       else (.Failed, [⟨some 1, []⟩])) := rfl
  have hNWB : stepGo [opNotWordBoundary, opMatch] input pos 4 [⟨some 0, []⟩] 0 =
      (if is_word_boundary input pos then (.Failed, [⟨some 1, []⟩])
       else (.Matched, [⟨none, []⟩])) := rfl
  rw [← is_word_boundary_iff input pos]
  constructor
  · rw [hWB]
    by_cases hb : is_word_boundary input pos <;> simp [hb]
  · rw [hNWB]
    by_cases hb : is_word_boundary input pos <;> simp [hb]

/-- Claim C2 counterexample: on the empty input at position 0 the claim's
predicate (outside counts as non-word on both sides, hence no difference)
says `WordBoundary` must fail, yet the anchored execution of the pattern
`\b` on the empty input matches. -/
theorem c2_empty_input_boundary :
    compileL patWB = progWB ∧
    exec progWB [] true false [] = (true, [some 0, some 0]) ∧
    specWordBoundary [] 0 = false :=
  ⟨compileL_patWB, by decide, by decide⟩

/-- Claim C3 (corrected).  Duplicate collapse holds at insertion time:
`add_thread` inserts a new thread only when no thread in the list already has
that instruction pointer, and leaves the list unchanged otherwise.  The full
claimed invariant — no two live threads ever share an instruction pointer at
any point of `exec` — fails, because a stepping thread's own continuation is
never checked (see the counterexample). -/
theorem c3_add_thread_collapse :
    ∀ (ts : List Thread) (index pos : Nat) (saves : List (Option Nat)),
    ((ts.any fun t => t.inst == some pos) = true → add_thread ts index pos saves = ts) ∧
    ((ts.any fun t => t.inst == some pos) = false →
      add_thread ts index pos saves = ts.insertIdx index ⟨some pos, saves⟩) := by
  intro ts index pos saves
  constructor <;> intro h <;> simp [add_thread, h]

theorem c3_add_thread_collapse_witness :
    add_thread [⟨some 5, []⟩] 1 5 [] = [⟨some 5, []⟩] ∧
    add_thread [⟨some 5, []⟩] 1 7 [] = [⟨some 5, []⟩, ⟨some 7, []⟩] :=
  ⟨(c3_add_thread_collapse [⟨some 5, []⟩] 1 5 []).1 (by decide),
   ((c3_add_thread_collapse [⟨some 5, []⟩] 1 7 []).2 (by decide)).trans (by decide)⟩

/-- Claim C3 counterexample: searching `aaa` with the program compiled from
`aa*b`, after three rounds of `exec`'s outer loop the compacted thread list
has its first two (live) threads both at instruction pointer 22 — two
simultaneously-live threads share an instruction pointer. -/
theorem c3_duplicate_inst :
    compileL patC3 = progC3 ∧
    (run_rounds progC3.bytecode (s2c "aaa") false false 3 0
        (seed_threads progC3.save_count false) [] false).map
      (fun st => ((st.1.getD 0 default).inst, (st.1.getD 1 default).inst))
      = some (some 22, some 22) :=
  ⟨compileL_patC3, by decide⟩

/-- Claim C4 (corrected).  With `longest=false`, `exec` reports the match of
the first thread to reach `Match` in the round-by-round, priority-ordered
stepping.  Among alternatives starting at the same position the earlier
alternative wins (`(a|ab)` on `ab` yields `a`, group 0 = `[0,1)`), but
neither leftmost selection nor greedy-branch selection is guaranteed:
`(ab|b)x` on `abx` selects `bx` = `[1,3)` although the anchored run shows a
match starting at 0 (the `Jump` duplicate-collapse drops the higher-priority
thread), and `(a*)` searched on `aa` selects the empty match `[0,0)`. -/
theorem c4_first_match_selection :
    compileL patAlt = progAlt ∧
    exec progAlt (s2c "ab") false false [] = (true, [some 0, some 1, some 0, some 1]) ∧
    compileL patC4 = progC4 ∧
    exec progC4 (s2c "abx") false false [] = (true, [some 1, some 3, some 1, some 2]) ∧
    (exec progC4 (s2c "abx") true false []).1 = true ∧
    compileL patStar = progStar ∧
    exec progStar (s2c "aa") false false [] = (true, [some 0, some 0, some 0, some 0]) ∧
    (exec progStar (s2c "aa") true false []).1 = true :=
  ⟨compileL_patAlt, by decide, compileL_patC4, by decide, by decide,
   compileL_patStar, by decide, by decide⟩

/-- Claim C4 counterexample: compiling `(ab|b)x` and searching `abx` with
`longest=false` selects the match whose group-0 start is 1, although the
anchored run proves a match beginning at offset 0 exists — the selected match
is not the leftmost.  Likewise `(a*)` searched on `aa` reports the empty
match `[0,0)` although the greedy branch matches `aa` from the same start. -/
theorem c4_not_leftmost :
    ((exec (compileL patC4) (s2c "abx") false false []).2.getD 0 none = some 1 ∧
     (exec (compileL patC4) (s2c "abx") true false []).1 = true) ∧
    ((exec (compileL patStar) (s2c "aa") false false []).2.getD 1 none = some 0 ∧
     (exec (compileL patStar) (s2c "aa") true false []).1 = true) := by
  rw [compileL_patC4, compileL_patStar]
  exact ⟨⟨by decide, by decide⟩, ⟨by decide, by decide⟩⟩

set_option maxHeartbeats 1600000 in
/-- Claim C5 (confirmed).  Compiling `^(foo|qux|baz)+(bar)?baz$` and running
it anchored: on `fooquxbarbaz` it matches with group-1 capture slots 3 and 6,
which delimit the substring `qux` (the last iteration of the `+`); on
`fooquxbarbaze` it does not match; on `bazbaz` and `quxbaz` it matches. -/
theorem c5_concrete_scenarios :
    compileL patC5 = progC5 ∧
    exec progC5 (s2c "fooquxbarbaz") true false []
      = (true, [some 0, some 12, some 3, some 6, some 6, some 9]) ∧
    ((s2c "fooquxbarbaz").drop 3).take 3 = s2c "qux" ∧
    (exec progC5 (s2c "fooquxbarbaze") true false []).1 = false ∧
    (exec progC5 (s2c "bazbaz") true false []).1 = true ∧
    (exec progC5 (s2c "quxbaz") true false []).1 = true :=
  ⟨compileL_patC5, by decide, by decide, by decide, by decide, by decide⟩

set_option maxHeartbeats 1600000 in
/-- Claim C6 (confirmed).  Compiling the subject-anchored pattern with `a`
repeated 3 to 5 times followed by `b` and executing it yields false on
`aab`, true on `aaab`, true on `aaaaab`, and false on `aaaaaab`. -/
theorem c6_bounded_repeat :
    compileL patC6 = progC6 ∧
    (exec progC6 (s2c "aab") true false []).1 = false ∧
    (exec progC6 (s2c "aaab") true false []).1 = true ∧
    (exec progC6 (s2c "aaaaab") true false []).1 = true ∧
    (exec progC6 (s2c "aaaaaab") true false []).1 = false :=
  ⟨compileL_patC6, by decide, by decide, by decide, by decide⟩

/-- Claim C7 (code bug).  On a pattern whose `\x7b` quantifier is not closed
before the end of the string, the parser dereferences its iterator at the
end of the pattern (an out-of-bounds read) before it could throw
`ExpectedClosingBrace`: parsing `a\x7b3`, `a\x7b` and `a\x7b3,` all hit the
modelled `readPastEnd` instead of a clean `expectedClosingBrace`, which is
only reached when a non-brace character is actually present (`a\x7b3x`). -/
theorem c7_unclosed_brace_reads_past_end :
    parseErr [97, 123, 51] = some .readPastEnd ∧
    parseErr [97, 123] = some .readPastEnd ∧
    parseErr [97, 123, 51, 44] = some .readPastEnd ∧
    parseErr [97, 123, 51, 120] = some .expectedClosingBrace ∧
    parseErr [97, 123, 51, 125] = none :=
  ⟨by decide, by decide, by decide, by decide, by decide⟩

set_option maxHeartbeats 1600000 in
/-- Claim C8 (corrected).  For `a` with quantifier min missing and max 3, the
compiled program accepts 0 to 3 repetitions (`b`, `ab`, `aaab` match,
`aaaab` does not).  But the claimed rule "0 to m repetitions" fails at
`m = 0`: compilation always emits one mandatory-position copy of the atom, so
`a` with quantifier min missing and max 0 still accepts one repetition
(`ab` matches) besides zero (`b` matches), while two fail (`aab`). -/
theorem c8_min_missing_cases :
    compileL patC8 = progC8 ∧
    (exec progC8 (s2c "b") true false []).1 = true ∧
    (exec progC8 (s2c "ab") true false []).1 = true ∧
    (exec progC8 (s2c "aaab") true false []).1 = true ∧
    (exec progC8 (s2c "aaaab") true false []).1 = false ∧
    compileL patC8z = progC8z ∧
    (exec progC8z (s2c "b") true false []).1 = true ∧
    (exec progC8z (s2c "ab") true false []).1 = true ∧
    (exec progC8z (s2c "aab") true false []).1 = false :=
  ⟨compileL_patC8, by decide, by decide, by decide, by decide,
   compileL_patC8z, by decide, by decide, by decide⟩

set_option maxHeartbeats 1600000 in
/-- Claim C8 counterexample: with `m = 0` the claim allows only 0 repetitions,
yet the program compiled from `a` + `\x7b,0\x7d` + `b` matches `ab` — one
repetition of the atom is accepted. -/
theorem c8_zero_max_accepts_one :
    (exec (compileL patC8z) (s2c "ab") true false []).1 = true := by
  rw [compileL_patC8z]; decide

/-- Claim C9 (corrected).  When `exec` returns false, the captures member is
unchanged — provided the call is in full-match mode or longest mode is off.
(The exception the counterexample exhibits: with `match=false` and
`longest=true` a mid-input match by the highest-priority thread overwrites
the captures, empties the thread list, and `exec` then returns false.) -/
theorem c9_captures_preserved (p : CompiledRegex) (input : List Nat)
    (matchMode longest : Bool) (caps0 : List (Option Nat))
    (h : matchMode = true ∨ longest = false)
    (hfail : (exec p input matchMode longest caps0).1 = false) :
    (exec p input matchMode longest caps0).2 = caps0 :=
  exec_loop_fail_caps p.bytecode input matchMode longest h input.length 0
    (seed_threads p.save_count matchMode) caps0 false hfail

theorem c9_captures_preserved_witness :
    (exec progA (s2c "b") true false [some 9, some 9]).1 = false ∧
    (exec progA (s2c "b") true false [some 9, some 9]).2 = [some 9, some 9] :=
  ⟨by decide, c9_captures_preserved progA (s2c "b") true false [some 9, some 9]
      (Or.inl rfl) (by decide)⟩

/-- Claim C9 counterexample: a search of the pattern `a` over `ab` with
`longest=true` finds the match `[0,1)` mid-input at thread index 0, moves it
into the captures, truncates every thread, and then returns false — the
captures recorded by an earlier call (here `[some 9, some 9]`) are destroyed
even though `exec` reports no match. -/
theorem c9_longest_search_mutates :
    exec (compileL patA) (s2c "ab") false true [some 9, some 9]
      = (false, [some 0, some 1]) := by
  rw [compileL_patA]; decide

/-- Claim C10 (confirmed).  The compiler emits each `Save` slot index as a
single byte — `2c mod 256` and `2c+1 mod 256` for capture `c` — and the VM
reads the operand back as one byte and uses it as the slot index; the encoded
index equals `2c+1` exactly when `2c+1` fits in one byte, so from capture
group 128 on the emitted slot indices wrap modulo 256: group 128's two `Save`
operands come out as `2·128 mod 256 = 0` and `(2·128+1) mod 256 = 1` instead
of the true slot indices 256 and 257. -/
theorem c10_save_slot_byte :
    (∀ (c : Nat) (q : Quantifier) (p : CompiledRegex), c ≠ NONE →
      (compile_node_inner 4 [] p (.mk .Sequence c q [.mk .Literal 97 qOne []])).1.bytecode
        = p.bytecode ++ [opSave, c * 2 % 256, opLiteral, 97, opSave, (c * 2 + 1) % 256]) ∧
    (∀ (b : Nat) (saves : List (Option Nat)) (input : List Nat) (pos : Nat),
      stepGo [opSave, b % 256, opMatch] input pos 8 [⟨some 0, saves⟩] 0
        = (.Matched, [⟨none, saves.set (b % 256) (some (byteOffset input pos))⟩])) ∧
    (∀ c : Nat, (c * 2 + 1) % 256 = c * 2 + 1 ↔ c * 2 + 1 < 256) ∧
    128 * 2 % 256 = 0 ∧ (128 * 2 + 1) % 256 = 1 := by
  refine ⟨?_, ?_, ?_, by decide, by decide⟩
  · intro c q p hc
    simp [compile_node_inner, compile_node, push, push_codepoint, utf8Encode,
      Quantifier.allows_none, Quantifier.allows_infinite_repeat, hc,
      AstNode.op, AstNode.value, AstNode.quantifier, AstNode.children, qOne]
    exact ⟨by decide, by decide, by decide⟩
  · intro b saves input pos
    rfl
  · intro c
    constructor
    · intro h; rw [← h]; exact Nat.mod_lt _ (by norm_num)
    · exact Nat.mod_eq_of_lt

theorem c10_save_slot_byte_witness :
    (compile_node_inner 4 [] ⟨[], 0⟩
        (.mk .Sequence 128 qOne [.mk .Literal 97 qOne []])).1.bytecode
      = [opSave, 0, opLiteral, 97, opSave, 1] ∧ (128 : Nat) ≠ NONE :=
  ⟨(c10_save_slot_byte.1 128 qOne ⟨[], 0⟩ (by decide)).trans (by decide), by decide⟩

end KakRegex
